import Mathlib

/-!
Verification of the AMQP message model FFI wrapper
(`rust_wrapper/src/model/message.rs`) against its specification.

The wrapper functions (`message_create`, `message_deserialize`,
`message_get_*`, `messagebuilder_*`) are embedded from the source file.
The underlying `azure_core_amqp` library types (`AmqpValue`,
`AmqpMessage`, `AmqpMessageBuilder`, the codec) are not part of the
visible source; they are modelled from the specification, each such
definition marked "Modelled from the spec".

FFI conventions embedded as pure data:
  - an out-pointer that may be left null is an `Option`;
  - an `i32` status code is an `Int`;
  - a Rust `panic!` (which aborts the process across the `extern "C"`
    boundary) is an explicit abort constructor in the result type;
  - a builder pointer consumed by `Box::from_raw` and dropped on the
    error path is a result constructor that carries no builder.
-/

mutual

/-- Modelled from the spec: the generic value type system, "a tagged
union of scalar/composite protocol values" (strings, maps, lists,
binary, ...).  `AmqpValueList` and `AmqpValueMap` give the
composite payloads as mutual inductives so that structural recursion
is available. -/
inductive AmqpValue : Type where
  | null : AmqpValue
  | bool (b : Bool) : AmqpValue
  | ulong (n : Nat) : AmqpValue
  | int (i : Int) : AmqpValue
  | string (s : String) : AmqpValue
  | symbol (s : String) : AmqpValue
  | binary (bs : List Nat) : AmqpValue
  | list (xs : AmqpValueList) : AmqpValue
  | map (m : AmqpValueMap) : AmqpValue

/-- Modelled from the spec: a finite sequence of generic values. -/
inductive AmqpValueList : Type where
  | nil : AmqpValueList
  | cons (v : AmqpValue) (rest : AmqpValueList) : AmqpValueList

/-- Modelled from the spec: an ordered sequence of key/value pairs of
generic values, the payload of a map-variant value. -/
inductive AmqpValueMap : Type where
  | nil : AmqpValueMap
  | cons (k v : AmqpValue) (rest : AmqpValueMap) : AmqpValueMap

end

mutual

/-- Decidable equality for generic values. -/
def AmqpValue.deq : (a b : AmqpValue) → Decidable (a = b)
  | .null, .null => isTrue rfl
  | .bool a, .bool b =>
      match decEq a b with
      | isTrue h => isTrue (by rw [h])
      | isFalse h => isFalse (by intro hc; cases hc; exact h rfl)
  | .ulong a, .ulong b =>
      match decEq a b with
      | isTrue h => isTrue (by rw [h])
      | isFalse h => isFalse (by intro hc; cases hc; exact h rfl)
  | .int a, .int b =>
      match decEq a b with
      | isTrue h => isTrue (by rw [h])
      | isFalse h => isFalse (by intro hc; cases hc; exact h rfl)
  | .string a, .string b =>
      match decEq a b with
      | isTrue h => isTrue (by rw [h])
      | isFalse h => isFalse (by intro hc; cases hc; exact h rfl)
  | .symbol a, .symbol b =>
      match decEq a b with
      | isTrue h => isTrue (by rw [h])
      | isFalse h => isFalse (by intro hc; cases hc; exact h rfl)
  | .binary a, .binary b =>
      match decEq a b with
      | isTrue h => isTrue (by rw [h])
      | isFalse h => isFalse (by intro hc; cases hc; exact h rfl)
  | .list a, .list b =>
      match AmqpValueList.deq a b with
      | isTrue h => isTrue (by rw [h])
      | isFalse h => isFalse (by intro hc; cases hc; exact h rfl)
  | .map a, .map b =>
      match AmqpValueMap.deq a b with
      | isTrue h => isTrue (by rw [h])
      | isFalse h => isFalse (by intro hc; cases hc; exact h rfl)
  | .null, .bool _ | .null, .ulong _ | .null, .int _ | .null, .string _
  | .null, .symbol _ | .null, .binary _ | .null, .list _ | .null, .map _
  | .bool _, .null | .bool _, .ulong _ | .bool _, .int _ | .bool _, .string _
  | .bool _, .symbol _ | .bool _, .binary _ | .bool _, .list _ | .bool _, .map _
  | .ulong _, .null | .ulong _, .bool _ | .ulong _, .int _ | .ulong _, .string _
  | .ulong _, .symbol _ | .ulong _, .binary _ | .ulong _, .list _ | .ulong _, .map _
  | .int _, .null | .int _, .bool _ | .int _, .ulong _ | .int _, .string _
  | .int _, .symbol _ | .int _, .binary _ | .int _, .list _ | .int _, .map _
  | .string _, .null | .string _, .bool _ | .string _, .ulong _ | .string _, .int _
  | .string _, .symbol _ | .string _, .binary _ | .string _, .list _ | .string _, .map _
  | .symbol _, .null | .symbol _, .bool _ | .symbol _, .ulong _ | .symbol _, .int _
  | .symbol _, .string _ | .symbol _, .binary _ | .symbol _, .list _ | .symbol _, .map _
  | .binary _, .null | .binary _, .bool _ | .binary _, .ulong _ | .binary _, .int _
  | .binary _, .string _ | .binary _, .symbol _ | .binary _, .list _ | .binary _, .map _
  | .list _, .null | .list _, .bool _ | .list _, .ulong _ | .list _, .int _
  | .list _, .string _ | .list _, .symbol _ | .list _, .binary _ | .list _, .map _
  | .map _, .null | .map _, .bool _ | .map _, .ulong _ | .map _, .int _
  | .map _, .string _ | .map _, .symbol _ | .map _, .binary _ | .map _, .list _ =>
      isFalse (by intro hc; cases hc)

/-- Decidable equality for value lists. -/
def AmqpValueList.deq : (a b : AmqpValueList) → Decidable (a = b)
  | .nil, .nil => isTrue rfl
  | .cons v r, .cons v' r' =>
      match AmqpValue.deq v v', AmqpValueList.deq r r' with
      | isTrue h1, isTrue h2 => isTrue (by rw [h1, h2])
      | isFalse h1, _ => isFalse (by intro hc; cases hc; exact h1 rfl)
      | _, isFalse h2 => isFalse (by intro hc; cases hc; exact h2 rfl)
  | .nil, .cons _ _ => isFalse (by intro hc; cases hc)
  | .cons _ _, .nil => isFalse (by intro hc; cases hc)

/-- Decidable equality for value maps. -/
def AmqpValueMap.deq : (a b : AmqpValueMap) → Decidable (a = b)
  | .nil, .nil => isTrue rfl
  | .cons k v r, .cons k' v' r' =>
      match AmqpValue.deq k k', AmqpValue.deq v v', AmqpValueMap.deq r r' with
      | isTrue h0, isTrue h1, isTrue h2 => isTrue (by rw [h0, h1, h2])
      | isFalse h0, _, _ => isFalse (by intro hc; cases hc; exact h0 rfl)
      | _, isFalse h1, _ => isFalse (by intro hc; cases hc; exact h1 rfl)
      | _, _, isFalse h2 => isFalse (by intro hc; cases hc; exact h2 rfl)
  | .nil, .cons _ _ _ => isFalse (by intro hc; cases hc)
  | .cons _ _ _, .nil => isFalse (by intro hc; cases hc)

end

instance : DecidableEq AmqpValue := AmqpValue.deq

instance : DecidableEq AmqpValueList := AmqpValueList.deq

instance : DecidableEq AmqpValueMap := AmqpValueMap.deq

/-- Modelled from the spec: an annotation-map key, "polymorphic over two
representations — a small integer code or a textual symbol". -/
inductive AmqpAnnotationKey : Type where
  | code (n : Nat) : AmqpAnnotationKey
  | symbol (s : String) : AmqpAnnotationKey
deriving DecidableEq

/-- Modelled from the spec: the insertion-ordered map, represented as its
pair sequence with unique keys in insertion order. -/
def AmqpOrderedMap (K V : Type) : Type := List (K × V)

/-- Modelled from the spec: ordered-map construction from a pair stream,
"on duplicate key, most recent value wins but original position is
retained (insertion order fixed by first occurrence)". -/
def AmqpOrderedMap.fromPairs {K V : Type} [DecidableEq K]
    (l : List (K × V)) : AmqpOrderedMap K V :=
  l.foldl (fun (acc : List (K × V)) kv =>
    if acc.any (fun p => p.1 == kv.1) then
      acc.map (fun p => if p.1 == kv.1 then (p.1, kv.2) else p)
    else acc ++ [kv]) []

/-- Modelled from the spec: the Header section, a "fixed-shape record
(delivery-count, durability, priority, time-to-live, first-acquirer
flags)". -/
structure AmqpMessageHeader : Type where
  durable : Bool := false
  priority : Nat := 4
  timeToLive : Option Nat := none
  firstAcquirer : Bool := false
  deliveryCount : Nat := 0
deriving DecidableEq

/-- Modelled from the spec: the Properties section, a "fixed-shape record
of standard fields (message-id, correlation-id, subject, reply-to,
etc.)". -/
structure AmqpMessageProperties : Type where
  messageId : Option AmqpValue := none
  correlationId : Option AmqpValue := none
  subject : Option String := none
  replyTo : Option String := none
  contentType : Option String := none
deriving DecidableEq

/-- Modelled from the spec: an annotations section, an ordered map from
annotation keys to generic values. -/
def AmqpAnnotations : Type := AmqpOrderedMap AmqpAnnotationKey AmqpValue

instance : DecidableEq AmqpAnnotations :=
  inferInstanceAs (DecidableEq (List (AmqpAnnotationKey × AmqpValue)))

/-- Modelled from the spec: the application-properties section, an ordered
map keyed exclusively by text. -/
def AmqpApplicationProperties : Type := AmqpOrderedMap String AmqpValue

instance : DecidableEq AmqpApplicationProperties :=
  inferInstanceAs (DecidableEq (List (String × AmqpValue)))

/-- Modelled from the spec: the message body, "exactly one of four
variants — a sequence of opaque binary chunks, a sequence of list-valued
chunks, a single generic value, or empty". -/
inductive AmqpMessageBody : Type where
  | binary (chunks : List (List Nat)) : AmqpMessageBody
  | sequence (chunks : List AmqpValueList) : AmqpMessageBody
  | value (v : AmqpValue) : AmqpMessageBody
  | empty : AmqpMessageBody
deriving DecidableEq

/-- Modelled from the spec: the Message aggregate, "owns zero-or-one of
each section plus exactly one Body variant". -/
structure AmqpMessage : Type where
  header : Option AmqpMessageHeader := none
  properties : Option AmqpMessageProperties := none
  deliveryAnnotations : Option AmqpAnnotations := none
  messageAnnotations : Option AmqpAnnotations := none
  applicationProperties : Option AmqpApplicationProperties := none
  footer : Option AmqpAnnotations := none
  body : AmqpMessageBody := .empty
deriving DecidableEq

/-- Modelled from the spec: the Builder "owns an in-progress,
not-yet-validated accumulation of the same fields". -/
structure AmqpMessageBuilder : Type where
  header : Option AmqpMessageHeader := none
  properties : Option AmqpMessageProperties := none
  deliveryAnnotations : Option AmqpAnnotations := none
  messageAnnotations : Option AmqpAnnotations := none
  applicationProperties : Option AmqpApplicationProperties := none
  footer : Option AmqpAnnotations := none
  body : AmqpMessageBody := .empty
deriving DecidableEq

/-- Modelled from the spec: a fresh, empty builder. -/
def AmqpMessage.builder : AmqpMessageBuilder := {}

/-- Modelled from the spec: with_header replaces "whichever was previously
set (no merge semantics)". -/
def AmqpMessageBuilder.with_header (b : AmqpMessageBuilder)
    (h : AmqpMessageHeader) : AmqpMessageBuilder :=
  { b with header := some h }

/-- Modelled from the spec: with_properties replaces the prior value. -/
def AmqpMessageBuilder.with_properties (b : AmqpMessageBuilder)
    (p : AmqpMessageProperties) : AmqpMessageBuilder :=
  { b with properties := some p }

/-- Modelled from the spec: with_delivery_annotations stores the map. -/
def AmqpMessageBuilder.with_delivery_annotations (b : AmqpMessageBuilder)
    (a : AmqpAnnotations) : AmqpMessageBuilder :=
  { b with deliveryAnnotations := some a }

/-- Modelled from the spec: with_message_annotations stores the map. -/
def AmqpMessageBuilder.with_message_annotations (b : AmqpMessageBuilder)
    (a : AmqpAnnotations) : AmqpMessageBuilder :=
  { b with messageAnnotations := some a }

/-- Modelled from the spec: with_application_properties stores the
text-keyed map. -/
def AmqpMessageBuilder.with_application_properties (b : AmqpMessageBuilder)
    (p : AmqpApplicationProperties) : AmqpMessageBuilder :=
  { b with applicationProperties := some p }

/-- Modelled from the spec: with_footer stores the map. -/
def AmqpMessageBuilder.with_footer (b : AmqpMessageBuilder)
    (a : AmqpAnnotations) : AmqpMessageBuilder :=
  { b with footer := some a }

/-- Modelled from the spec: add_message_body_binary "appends one chunk to
the Binary-chunks body variant; first call on a builder with no prior
body establishes the Binary variant"; on a conflicting prior variant
"the reference implementation does not check this" and the chunk list is
silently (re)established. -/
def AmqpMessageBuilder.add_message_body_binary (b : AmqpMessageBuilder)
    (chunk : List Nat) : AmqpMessageBuilder :=
  match b.body with
  | .binary chunks => { b with body := .binary (chunks ++ [chunk]) }
  | _ => { b with body := .binary [chunk] }

/-- Modelled from the spec: add_message_body_sequence appends to the
Sequence-chunks variant, with the same unchecked-conflict reference
behaviour as add_message_body_binary. -/
def AmqpMessageBuilder.add_message_body_sequence (b : AmqpMessageBuilder)
    (chunk : AmqpValueList) : AmqpMessageBuilder :=
  match b.body with
  | .sequence chunks => { b with body := .sequence (chunks ++ [chunk]) }
  | _ => { b with body := .sequence [chunk] }

/-- Modelled from the spec: with_body "sets the Value variant, replacing
any prior body content". -/
def AmqpMessageBuilder.with_body (b : AmqpMessageBuilder)
    (v : AmqpValue) : AmqpMessageBuilder :=
  { b with body := .value v }

/-- Modelled from the spec: build "consumes the builder, returns the
immutable Message; no validation beyond what each setter already
enforced". -/
def AmqpMessageBuilder.build (b : AmqpMessageBuilder) : AmqpMessage :=
  { header := b.header, properties := b.properties,
    deliveryAnnotations := b.deliveryAnnotations,
    messageAnnotations := b.messageAnnotations,
    applicationProperties := b.applicationProperties,
    footer := b.footer, body := b.body }

/-!
Codec.  The spec specifies the codec only at the interface level
("round-trip exact"; the concrete bit layout belongs to the external
value type system and is "out of scope to respecify").  The wire format
is therefore modelled as a token stream, one natural-number token per
scalar, with tag and marker tokens.
-/

/-- Modelled from the spec: wire form of a boolean. -/
def encBool (b : Bool) : List Nat := [b.toNat]

/-- Modelled from the spec: wire form of a signed integer. -/
def encInt (i : Int) : List Nat :=
  if i < 0 then [1, (-i).toNat] else [0, i.toNat]

/-- Modelled from the spec: wire form of a string, length-prefixed. -/
def encString (s : String) : List Nat :=
  s.data.length :: s.data.map Char.toNat

/-- Modelled from the spec: wire form of a byte buffer, length-prefixed. -/
def encBytes (bs : List Nat) : List Nat := bs.length :: bs

/-- Modelled from the spec: wire form of an optional component, with a
presence marker so that absent and present-but-empty stay distinct. -/
def encOption {α : Type} (enc : α → List Nat) : Option α → List Nat
  | none => [0]
  | some a => 1 :: enc a

mutual

/-- Modelled from the spec: wire form of a generic value, tag-prefixed. -/
def encodeValue : AmqpValue → List Nat
  | .null => [0]
  | .bool b => 1 :: encBool b
  | .ulong n => [2, n]
  | .int i => 3 :: encInt i
  | .string s => 4 :: encString s
  | .symbol s => 5 :: encString s
  | .binary bs => 6 :: encBytes bs
  | .list xs => 7 :: encodeValueList xs
  | .map m => 8 :: encodeValueMap m

/-- Modelled from the spec: wire form of a value list, cons-marked. -/
def encodeValueList : AmqpValueList → List Nat
  | .nil => [0]
  | .cons v rest => 1 :: (encodeValue v ++ encodeValueList rest)

/-- Modelled from the spec: wire form of a value map, cons-marked; the
pair order on the wire is the map's insertion order. -/
def encodeValueMap : AmqpValueMap → List Nat
  | .nil => [0]
  | .cons k v rest => 1 :: (encodeValue k ++ encodeValue v ++ encodeValueMap rest)

end

/-- Modelled from the spec: wire form of an annotation key. -/
def encAnnKey : AmqpAnnotationKey → List Nat
  | .code n => [0, n]
  | .symbol s => 1 :: encString s

/-- Modelled from the spec: wire form of an annotations section, pairs in
insertion order, cons-marked. -/
def encAnnPairs : List (AmqpAnnotationKey × AmqpValue) → List Nat
  | [] => [0]
  | (k, v) :: rest => 1 :: (encAnnKey k ++ encodeValue v ++ encAnnPairs rest)

/-- Modelled from the spec: wire form of the application-properties
section, text keys, pairs in insertion order. -/
def encAppPairs : List (String × AmqpValue) → List Nat
  | [] => [0]
  | (k, v) :: rest => 1 :: (encString k ++ encodeValue v ++ encAppPairs rest)

/-- Modelled from the spec: wire form of the Header section. -/
def encHeader (h : AmqpMessageHeader) : List Nat :=
  encBool h.durable ++ [h.priority] ++
    encOption (fun n => [n]) h.timeToLive ++
    encBool h.firstAcquirer ++ [h.deliveryCount]

/-- Modelled from the spec: wire form of the Properties section. -/
def encProperties (p : AmqpMessageProperties) : List Nat :=
  encOption encodeValue p.messageId ++
    encOption encodeValue p.correlationId ++
    encOption encString p.subject ++
    encOption encString p.replyTo ++
    encOption encString p.contentType

/-- Modelled from the spec: wire form of the binary body chunks. -/
def encBinChunks : List (List Nat) → List Nat
  | [] => [0]
  | c :: rest => 1 :: (encBytes c ++ encBinChunks rest)

/-- Modelled from the spec: wire form of the sequence body chunks. -/
def encSeqChunks : List AmqpValueList → List Nat
  | [] => [0]
  | c :: rest => 1 :: (encodeValueList c ++ encSeqChunks rest)

/-- Modelled from the spec: wire form of the body, variant-tagged. -/
def encBody : AmqpMessageBody → List Nat
  | .binary cs => 0 :: encBinChunks cs
  | .sequence cs => 1 :: encSeqChunks cs
  | .value v => 2 :: encodeValue v
  | .empty => [3]

/-- Modelled from the spec: encode(Message) is "deterministic given the
Message's content, including ordered-map iteration order", sections in
their standard order, each behind a presence marker. -/
def encodeMessage (m : AmqpMessage) : List Nat :=
  encOption encHeader m.header ++
    encOption encProperties m.properties ++
    encOption encAnnPairs m.deliveryAnnotations ++
    encOption encAnnPairs m.messageAnnotations ++
    encOption encAppPairs m.applicationProperties ++
    encOption encAnnPairs m.footer ++
    encBody m.body

/-- Modelled from the spec: AmqpMessage::encode as used by the wrapper. -/
def AmqpMessage.encode (m : AmqpMessage) : List Nat := encodeMessage m

/-- Modelled from the spec: decoder for a boolean token. -/
def decBool : List Nat → Option (Bool × List Nat)
  | 0 :: rest => some (false, rest)
  | 1 :: rest => some (true, rest)
  | _ => none

/-- Modelled from the spec: decoder for a natural-number token. -/
def decNat : List Nat → Option (Nat × List Nat)
  | n :: rest => some (n, rest)
  | [] => none

/-- Modelled from the spec: decoder for a signed integer. -/
def decInt : List Nat → Option (Int × List Nat)
  | 0 :: n :: rest => some ((n : Int), rest)
  | 1 :: n :: rest => some (-(n : Int), rest)
  | _ => none

/-- Modelled from the spec: decoder for a length-prefixed string. -/
def decString : List Nat → Option (String × List Nat)
  | [] => none
  | n :: rest =>
      if n ≤ rest.length then
        some (String.mk ((rest.take n).map Char.ofNat), rest.drop n)
      else none

/-- Modelled from the spec: decoder for a length-prefixed byte buffer. -/
def decBytes : List Nat → Option (List Nat × List Nat)
  | [] => none
  | n :: rest =>
      if n ≤ rest.length then some (rest.take n, rest.drop n) else none

/-- Modelled from the spec: decoder for an optional component behind a
presence marker. -/
def decOption {α : Type} (dec : List Nat → Option (α × List Nat)) :
    List Nat → Option (Option α × List Nat)
  | 0 :: rest => some (none, rest)
  | 1 :: rest =>
      match dec rest with
      | some (a, r) => some (some a, r)
      | none => none
  | _ => none

mutual

/-- Modelled from the spec: decoder for a generic value; fuel bounds the
nesting depth explored and is in surplus on every encoder output. -/
def decodeValue : Nat → List Nat → Option (AmqpValue × List Nat)
  | 0, _ => none
  | _ + 1, [] => none
  | fuel + 1, t :: rest =>
      match t with
      | 0 => some (.null, rest)
      | 1 =>
          match decBool rest with
          | some (b, r) => some (.bool b, r)
          | none => none
      | 2 =>
          match decNat rest with
          | some (n, r) => some (.ulong n, r)
          | none => none
      | 3 =>
          match decInt rest with
          | some (i, r) => some (.int i, r)
          | none => none
      | 4 =>
          match decString rest with
          | some (s, r) => some (.string s, r)
          | none => none
      | 5 =>
          match decString rest with
          | some (s, r) => some (.symbol s, r)
          | none => none
      | 6 =>
          match decBytes rest with
          | some (bs, r) => some (.binary bs, r)
          | none => none
      | 7 =>
          match decodeValueList fuel rest with
          | some (xs, r) => some (.list xs, r)
          | none => none
      | 8 =>
          match decodeValueMap fuel rest with
          | some (m, r) => some (.map m, r)
          | none => none
      | _ => none

/-- Modelled from the spec: decoder for a cons-marked value list. -/
def decodeValueList : Nat → List Nat → Option (AmqpValueList × List Nat)
  | 0, _ => none
  | _ + 1, [] => none
  | fuel + 1, t :: rest =>
      match t with
      | 0 => some (.nil, rest)
      | 1 =>
          match decodeValue fuel rest with
          | some (v, r) =>
              match decodeValueList fuel r with
              | some (xs, r2) => some (.cons v xs, r2)
              | none => none
          | none => none
      | _ => none

/-- Modelled from the spec: decoder for a cons-marked value map. -/
def decodeValueMap : Nat → List Nat → Option (AmqpValueMap × List Nat)
  | 0, _ => none
  | _ + 1, [] => none
  | fuel + 1, t :: rest =>
      match t with
      | 0 => some (.nil, rest)
      | 1 =>
          match decodeValue fuel rest with
          | some (k, r) =>
              match decodeValue fuel r with
              | some (v, r2) =>
                  match decodeValueMap fuel r2 with
                  | some (m, r3) => some (.cons k v m, r3)
                  | none => none
              | none => none
          | none => none
      | _ => none

end

/-- Modelled from the spec: decoder for an annotation key. -/
def decAnnKey : List Nat → Option (AmqpAnnotationKey × List Nat)
  | 0 :: n :: rest => some (.code n, rest)
  | 1 :: rest =>
      match decString rest with
      | some (s, r) => some (.symbol s, r)
      | none => none
  | _ => none

/-- Modelled from the spec: decoder for an annotations section. -/
def decAnnPairs : Nat → List Nat →
    Option (List (AmqpAnnotationKey × AmqpValue) × List Nat)
  | 0, _ => none
  | _ + 1, [] => none
  | fuel + 1, t :: rest =>
      match t with
      | 0 => some ([], rest)
      | 1 =>
          match decAnnKey rest with
          | some (k, r) =>
              match decodeValue fuel r with
              | some (v, r2) =>
                  match decAnnPairs fuel r2 with
                  | some (ps, r3) => some ((k, v) :: ps, r3)
                  | none => none
              | none => none
          | none => none
      | _ => none

/-- Modelled from the spec: decoder for the application-properties
section. -/
def decAppPairs : Nat → List Nat →
    Option (List (String × AmqpValue) × List Nat)
  | 0, _ => none
  | _ + 1, [] => none
  | fuel + 1, t :: rest =>
      match t with
      | 0 => some ([], rest)
      | 1 =>
          match decString rest with
          | some (k, r) =>
              match decodeValue fuel r with
              | some (v, r2) =>
                  match decAppPairs fuel r2 with
                  | some (ps, r3) => some ((k, v) :: ps, r3)
                  | none => none
              | none => none
          | none => none
      | _ => none

/-- Modelled from the spec: decoder for the Header section. -/
def decHeader (l : List Nat) : Option (AmqpMessageHeader × List Nat) :=
  match decBool l with
  | none => none
  | some (d, l1) =>
      match l1 with
      | [] => none
      | pr :: l2 =>
          match decOption decNat l2 with
          | none => none
          | some (ttl, l3) =>
              match decBool l3 with
              | none => none
              | some (fa, l4) =>
                  match l4 with
                  | [] => none
                  | dc :: l5 =>
                      some ({ durable := d, priority := pr,
                              timeToLive := ttl, firstAcquirer := fa,
                              deliveryCount := dc }, l5)

/-- Modelled from the spec: decoder for the Properties section. -/
def decProperties (fuel : Nat) (l : List Nat) :
    Option (AmqpMessageProperties × List Nat) :=
  match decOption (decodeValue fuel) l with
  | none => none
  | some (mid, l1) =>
      match decOption (decodeValue fuel) l1 with
      | none => none
      | some (cid, l2) =>
          match decOption decString l2 with
          | none => none
          | some (subj, l3) =>
              match decOption decString l3 with
              | none => none
              | some (rto, l4) =>
                  match decOption decString l4 with
                  | none => none
                  | some (ct, l5) =>
                      some ({ messageId := mid, correlationId := cid,
                              subject := subj, replyTo := rto,
                              contentType := ct }, l5)

/-- Modelled from the spec: decoder for the binary body chunks. -/
def decBinChunks : Nat → List Nat → Option (List (List Nat) × List Nat)
  | 0, _ => none
  | _ + 1, [] => none
  | fuel + 1, t :: rest =>
      match t with
      | 0 => some ([], rest)
      | 1 =>
          match decBytes rest with
          | some (c, r) =>
              match decBinChunks fuel r with
              | some (cs, r2) => some (c :: cs, r2)
              | none => none
          | none => none
      | _ => none

/-- Modelled from the spec: decoder for the sequence body chunks. -/
def decSeqChunks : Nat → List Nat → Option (List AmqpValueList × List Nat)
  | 0, _ => none
  | _ + 1, [] => none
  | fuel + 1, t :: rest =>
      match t with
      | 0 => some ([], rest)
      | 1 =>
          match decodeValueList fuel rest with
          | some (c, r) =>
              match decSeqChunks fuel r with
              | some (cs, r2) => some (c :: cs, r2)
              | none => none
          | none => none
      | _ => none

/-- Modelled from the spec: decoder for the body. -/
def decBody (fuel : Nat) : List Nat → Option (AmqpMessageBody × List Nat)
  | [] => none
  | t :: rest =>
      match t with
      | 0 =>
          match decBinChunks fuel rest with
          | some (cs, r) => some (.binary cs, r)
          | none => none
      | 1 =>
          match decSeqChunks fuel rest with
          | some (cs, r) => some (.sequence cs, r)
          | none => none
      | 2 =>
          match decodeValue fuel rest with
          | some (v, r) => some (.value v, r)
          | none => none
      | 3 => some (.empty, rest)
      | _ => none

/-- Modelled from the spec: decoder for a whole message, sections in
their standard order. -/
def decodeMessage (fuel : Nat) (l : List Nat) :
    Option (AmqpMessage × List Nat) :=
  match decOption decHeader l with
  | none => none
  | some (hd, l1) =>
      match decOption (decProperties fuel) l1 with
      | none => none
      | some (pr, l2) =>
          match decOption (decAnnPairs fuel) l2 with
          | none => none
          | some (da, l3) =>
              match decOption (decAnnPairs fuel) l3 with
              | none => none
              | some (ma, l4) =>
                  match decOption (decAppPairs fuel) l4 with
                  | none => none
                  | some (ap, l5) =>
                      match decOption (decAnnPairs fuel) l5 with
                      | none => none
                      | some (ft, l6) =>
                          match decBody fuel l6 with
                          | none => none
                          | some (bd, l7) =>
                              some ({ header := hd, properties := pr,
                                      deliveryAnnotations := da,
                                      messageAnnotations := ma,
                                      applicationProperties := ap,
                                      footer := ft, body := bd }, l7)

/-- Modelled from the spec: AmqpMessage::decode "parses the wire format
into sections and body; on malformed input returns a decode error"; a
complete Message is produced only when the whole input parses. -/
def AmqpMessage.decode (data : List Nat) : Except String AmqpMessage :=
  match decodeMessage (data.length + 1) data with
  | some (m, []) => Except.ok m
  | some (_, _ :: _) => Except.error "trailing bytes after message"
  | none => Except.error "malformed message"

/-- A boolean survives the wire. -/
theorem decBool_encBool (b : Bool) (r : List Nat) :
    decBool (encBool b ++ r) = some (b, r) := by
  cases b <;> rfl

/-- An integer survives the wire. -/
theorem decInt_encInt (i : Int) (r : List Nat) :
    decInt (encInt i ++ r) = some (i, r) := by
  by_cases h : i < 0
  · simp only [encInt, if_pos h, List.cons_append, decInt]
    congr 2
    omega
  · simp only [encInt, if_neg h, List.cons_append, decInt]
    congr 2
    omega

/-- A string survives the wire. -/
theorem decString_encString (s : String) (r : List Nat) :
    decString (encString s ++ r) = some (s, r) := by
  have hlen : (s.data.map Char.toNat).length = s.data.length := by simp
  simp only [encString, List.cons_append, decString]
  rw [if_pos (by simp)]
  rw [← hlen, List.take_left, List.drop_left]
  simp only [List.map_map]
  have hmap : List.map (Char.ofNat ∘ Char.toNat) s.data = s.data := by
    have hcomp : Char.ofNat ∘ Char.toNat = id := by
      funext c
      exact Char.ofNat_toNat c
    rw [hcomp, List.map_id]
  rw [hmap]

/-- A byte buffer survives the wire. -/
theorem decBytes_encBytes (bs : List Nat) (r : List Nat) :
    decBytes (encBytes bs ++ r) = some (bs, r) := by
  simp only [encBytes, List.cons_append, decBytes]
  rw [if_pos (by simp)]
  simp

/-- An optional component survives the wire whenever the inner component
does. -/
theorem decOption_encOption {α : Type} (enc : α → List Nat)
    (dec : List Nat → Option (α × List Nat)) (o : Option α) (r : List Nat)
    (h : ∀ (a : α) (r' : List Nat), dec (enc a ++ r') = some (a, r')) :
    decOption dec (encOption enc o ++ r) = some (o, r) := by
  cases o with
  | none => rfl
  | some a => simp [encOption, decOption, h a r]

/-- Every value encoding emits at least one token. -/
theorem encodeValue_length_pos (v : AmqpValue) : 0 < (encodeValue v).length := by
  cases v <;> simp [encodeValue]

/-- Every value-list encoding emits at least one token. -/
theorem encodeValueList_length_pos (xs : AmqpValueList) :
    0 < (encodeValueList xs).length := by
  cases xs <;> simp [encodeValueList]

/-- Every value-map encoding emits at least one token. -/
theorem encodeValueMap_length_pos (m : AmqpValueMap) :
    0 < (encodeValueMap m).length := by
  cases m <;> simp [encodeValueMap]

mutual

/-- A generic value survives the wire, for any fuel at least as large as
its encoding. -/
theorem decodeValue_encodeValue :
    ∀ (v : AmqpValue) (fuel : Nat) (r : List Nat),
      (encodeValue v).length ≤ fuel →
      decodeValue fuel (encodeValue v ++ r) = some (v, r)
  | .null, fuel, r, h => by
      cases fuel with
      | zero => simp [encodeValue] at h
      | succ f => rfl
  | .bool b, fuel, r, h => by
      cases fuel with
      | zero => simp [encodeValue] at h
      | succ f =>
          show (match decBool (encBool b ++ r) with
                | some (b, r) => some (AmqpValue.bool b, r)
                | none => none) = some (AmqpValue.bool b, r)
          rw [decBool_encBool]
  | .ulong n, fuel, r, h => by
      cases fuel with
      | zero => simp [encodeValue] at h
      | succ f => rfl
  | .int i, fuel, r, h => by
      cases fuel with
      | zero => simp [encodeValue] at h
      | succ f =>
          show (match decInt (encInt i ++ r) with
                | some (i, r) => some (AmqpValue.int i, r)
                | none => none) = some (AmqpValue.int i, r)
          rw [decInt_encInt]
  | .string s, fuel, r, h => by
      cases fuel with
      | zero => simp [encodeValue] at h
      | succ f =>
          show (match decString (encString s ++ r) with
                | some (s, r) => some (AmqpValue.string s, r)
                | none => none) = some (AmqpValue.string s, r)
          rw [decString_encString]
  | .symbol s, fuel, r, h => by
      cases fuel with
      | zero => simp [encodeValue] at h
      | succ f =>
          show (match decString (encString s ++ r) with
                | some (s, r) => some (AmqpValue.symbol s, r)
                | none => none) = some (AmqpValue.symbol s, r)
          rw [decString_encString]
  | .binary bs, fuel, r, h => by
      cases fuel with
      | zero => simp [encodeValue] at h
      | succ f =>
          show (match decBytes (encBytes bs ++ r) with
                | some (bs, r) => some (AmqpValue.binary bs, r)
                | none => none) = some (AmqpValue.binary bs, r)
          rw [decBytes_encBytes]
  | .list xs, fuel, r, h => by
      cases fuel with
      | zero => simp [encodeValue] at h
      | succ f =>
          have hx : (encodeValueList xs).length ≤ f := by
            simp [encodeValue] at h
            omega
          show (match decodeValueList f (encodeValueList xs ++ r) with
                | some (xs, r) => some (AmqpValue.list xs, r)
                | none => none) = some (AmqpValue.list xs, r)
          rw [decodeValueList_encodeValueList xs f r hx]
  | .map m, fuel, r, h => by
      cases fuel with
      | zero => simp [encodeValue] at h
      | succ f =>
          have hm : (encodeValueMap m).length ≤ f := by
            simp [encodeValue] at h
            omega
          show (match decodeValueMap f (encodeValueMap m ++ r) with
                | some (m, r) => some (AmqpValue.map m, r)
                | none => none) = some (AmqpValue.map m, r)
          rw [decodeValueMap_encodeValueMap m f r hm]

/-- A value list survives the wire, for any fuel at least as large as its
encoding. -/
theorem decodeValueList_encodeValueList :
    ∀ (xs : AmqpValueList) (fuel : Nat) (r : List Nat),
      (encodeValueList xs).length ≤ fuel →
      decodeValueList fuel (encodeValueList xs ++ r) = some (xs, r)
  | .nil, fuel, r, h => by
      cases fuel with
      | zero => simp [encodeValueList] at h
      | succ f => rfl
  | .cons v rest, fuel, r, h => by
      cases fuel with
      | zero => simp [encodeValueList] at h
      | succ f =>
          have hv : (encodeValue v).length ≤ f := by
            have h1 := encodeValueList_length_pos rest
            simp [encodeValueList] at h
            omega
          have hrest : (encodeValueList rest).length ≤ f := by
            have h1 := encodeValue_length_pos v
            simp [encodeValueList] at h
            omega
          show decodeValueList (f + 1)
              (1 :: (encodeValue v ++ encodeValueList rest ++ r)) =
            some (AmqpValueList.cons v rest, r)
          rw [List.append_assoc]
          show (match decodeValue f (encodeValue v ++ (encodeValueList rest ++ r)) with
                | some (v, r) =>
                    (match decodeValueList f r with
                     | some (xs, r2) => some (AmqpValueList.cons v xs, r2)
                     | none => none)
                | none => none) = some (AmqpValueList.cons v rest, r)
          rw [decodeValue_encodeValue v f (encodeValueList rest ++ r) hv]
          show (match decodeValueList f (encodeValueList rest ++ r) with
                | some (xs, r2) => some (AmqpValueList.cons v xs, r2)
                | none => none) = some (AmqpValueList.cons v rest, r)
          rw [decodeValueList_encodeValueList rest f r hrest]

/-- A value map survives the wire, for any fuel at least as large as its
encoding. -/
theorem decodeValueMap_encodeValueMap :
    ∀ (m : AmqpValueMap) (fuel : Nat) (r : List Nat),
      (encodeValueMap m).length ≤ fuel →
      decodeValueMap fuel (encodeValueMap m ++ r) = some (m, r)
  | .nil, fuel, r, h => by
      cases fuel with
      | zero => simp [encodeValueMap] at h
      | succ f => rfl
  | .cons k v rest, fuel, r, h => by
      cases fuel with
      | zero => simp [encodeValueMap] at h
      | succ f =>
          have hk : (encodeValue k).length ≤ f := by
            have h1 := encodeValue_length_pos v
            have h2 := encodeValueMap_length_pos rest
            simp [encodeValueMap] at h
            omega
          have hv : (encodeValue v).length ≤ f := by
            have h1 := encodeValue_length_pos k
            have h2 := encodeValueMap_length_pos rest
            simp [encodeValueMap] at h
            omega
          have hrest : (encodeValueMap rest).length ≤ f := by
            have h1 := encodeValue_length_pos k
            have h2 := encodeValue_length_pos v
            simp [encodeValueMap] at h
            omega
          show decodeValueMap (f + 1)
              (1 :: (((encodeValue k ++ encodeValue v) ++ encodeValueMap rest) ++ r)) =
            some (AmqpValueMap.cons k v rest, r)
          rw [List.append_assoc, List.append_assoc]
          show (match decodeValue f
                  (encodeValue k ++ (encodeValue v ++ (encodeValueMap rest ++ r))) with
                | some (k, r) =>
                    (match decodeValue f r with
                     | some (v, r2) =>
                         (match decodeValueMap f r2 with
                          | some (m, r3) => some (AmqpValueMap.cons k v m, r3)
                          | none => none)
                     | none => none)
                | none => none) = some (AmqpValueMap.cons k v rest, r)
          rw [decodeValue_encodeValue k f (encodeValue v ++ (encodeValueMap rest ++ r)) hk]
          show (match decodeValue f (encodeValue v ++ (encodeValueMap rest ++ r)) with
                | some (v, r2) =>
                    (match decodeValueMap f r2 with
                     | some (m, r3) => some (AmqpValueMap.cons k v m, r3)
                     | none => none)
                | none => none) = some (AmqpValueMap.cons k v rest, r)
          rw [decodeValue_encodeValue v f (encodeValueMap rest ++ r) hv]
          show (match decodeValueMap f (encodeValueMap rest ++ r) with
                | some (m, r3) => some (AmqpValueMap.cons k v m, r3)
                | none => none) = some (AmqpValueMap.cons k v rest, r)
          rw [decodeValueMap_encodeValueMap rest f r hrest]

end

/-- An annotation key survives the wire. -/
theorem decAnnKey_encAnnKey (k : AmqpAnnotationKey) (r : List Nat) :
    decAnnKey (encAnnKey k ++ r) = some (k, r) := by
  cases k with
  | code n => rfl
  | symbol s =>
      show (match decString (encString s ++ r) with
            | some (s, r) => some (AmqpAnnotationKey.symbol s, r)
            | none => none) = some (AmqpAnnotationKey.symbol s, r)
      rw [decString_encString]

/-- Every annotation-key encoding emits at least one token. -/
theorem encAnnKey_length_pos (k : AmqpAnnotationKey) :
    0 < (encAnnKey k).length := by
  cases k <;> simp [encAnnKey]

/-- Every annotations-section encoding emits at least one token. -/
theorem encAnnPairs_length_pos (ps : List (AmqpAnnotationKey × AmqpValue)) :
    0 < (encAnnPairs ps).length := by
  cases ps with
  | nil => simp [encAnnPairs]
  | cons p rest =>
      obtain ⟨k, v⟩ := p
      simp [encAnnPairs]

/-- Every string encoding emits at least one token. -/
theorem encString_length_pos (s : String) : 0 < (encString s).length := by
  simp [encString]

/-- Every application-properties encoding emits at least one token. -/
theorem encAppPairs_length_pos (ps : List (String × AmqpValue)) :
    0 < (encAppPairs ps).length := by
  cases ps with
  | nil => simp [encAppPairs]
  | cons p rest =>
      obtain ⟨k, v⟩ := p
      simp [encAppPairs]

/-- An annotations section survives the wire, for any fuel at least as
large as its encoding. -/
theorem decAnnPairs_encAnnPairs :
    ∀ (ps : List (AmqpAnnotationKey × AmqpValue)) (fuel : Nat) (r : List Nat),
      (encAnnPairs ps).length ≤ fuel →
      decAnnPairs fuel (encAnnPairs ps ++ r) = some (ps, r)
  | [], fuel, r, h => by
      cases fuel with
      | zero => simp [encAnnPairs] at h
      | succ f => rfl
  | (k, v) :: rest, fuel, r, h => by
      cases fuel with
      | zero => simp [encAnnPairs] at h
      | succ f =>
          have hkp := encAnnKey_length_pos k
          have hvp := encodeValue_length_pos v
          have hrp := encAnnPairs_length_pos rest
          simp only [encAnnPairs, List.length_cons, List.length_append] at h
          have hv : (encodeValue v).length ≤ f := by omega
          have hrest : (encAnnPairs rest).length ≤ f := by omega
          show decAnnPairs (f + 1)
              (1 :: (((encAnnKey k ++ encodeValue v) ++ encAnnPairs rest) ++ r)) =
            some ((k, v) :: rest, r)
          rw [List.append_assoc, List.append_assoc]
          show (match decAnnKey (encAnnKey k ++ (encodeValue v ++ (encAnnPairs rest ++ r))) with
                | some (k, r) =>
                    (match decodeValue f r with
                     | some (v, r2) =>
                         (match decAnnPairs f r2 with
                          | some (ps, r3) => some ((k, v) :: ps, r3)
                          | none => none)
                     | none => none)
                | none => none) = some ((k, v) :: rest, r)
          rw [decAnnKey_encAnnKey]
          show (match decodeValue f (encodeValue v ++ (encAnnPairs rest ++ r)) with
                | some (v, r2) =>
                    (match decAnnPairs f r2 with
                     | some (ps, r3) => some ((k, v) :: ps, r3)
                     | none => none)
                | none => none) = some ((k, v) :: rest, r)
          rw [decodeValue_encodeValue v f (encAnnPairs rest ++ r) hv]
          show (match decAnnPairs f (encAnnPairs rest ++ r) with
                | some (ps, r3) => some ((k, v) :: ps, r3)
                | none => none) = some ((k, v) :: rest, r)
          rw [decAnnPairs_encAnnPairs rest f r hrest]

/-- The application-properties section survives the wire, for any fuel at
least as large as its encoding. -/
theorem decAppPairs_encAppPairs :
    ∀ (ps : List (String × AmqpValue)) (fuel : Nat) (r : List Nat),
      (encAppPairs ps).length ≤ fuel →
      decAppPairs fuel (encAppPairs ps ++ r) = some (ps, r)
  | [], fuel, r, h => by
      cases fuel with
      | zero => simp [encAppPairs] at h
      | succ f => rfl
  | (k, v) :: rest, fuel, r, h => by
      cases fuel with
      | zero => simp [encAppPairs] at h
      | succ f =>
          have hkp := encString_length_pos k
          have hvp := encodeValue_length_pos v
          have hrp := encAppPairs_length_pos rest
          simp only [encAppPairs, List.length_cons, List.length_append] at h
          have hv : (encodeValue v).length ≤ f := by omega
          have hrest : (encAppPairs rest).length ≤ f := by omega
          show decAppPairs (f + 1)
              (1 :: (((encString k ++ encodeValue v) ++ encAppPairs rest) ++ r)) =
            some ((k, v) :: rest, r)
          rw [List.append_assoc, List.append_assoc]
          show (match decString (encString k ++ (encodeValue v ++ (encAppPairs rest ++ r))) with
                | some (k, r) =>
                    (match decodeValue f r with
                     | some (v, r2) =>
                         (match decAppPairs f r2 with
                          | some (ps, r3) => some ((k, v) :: ps, r3)
                          | none => none)
                     | none => none)
                | none => none) = some ((k, v) :: rest, r)
          rw [decString_encString]
          show (match decodeValue f (encodeValue v ++ (encAppPairs rest ++ r)) with
                | some (v, r2) =>
                    (match decAppPairs f r2 with
                     | some (ps, r3) => some ((k, v) :: ps, r3)
                     | none => none)
                | none => none) = some ((k, v) :: rest, r)
          rw [decodeValue_encodeValue v f (encAppPairs rest ++ r) hv]
          show (match decAppPairs f (encAppPairs rest ++ r) with
                | some (ps, r3) => some ((k, v) :: ps, r3)
                | none => none) = some ((k, v) :: rest, r)
          rw [decAppPairs_encAppPairs rest f r hrest]

/-- An optional natural-number token survives the wire. -/
theorem decOptionNat (o : Option Nat) (r : List Nat) :
    decOption decNat (encOption (fun n => [n]) o ++ r) = some (o, r) := by
  cases o with
  | none => rfl
  | some n => rfl

/-- The Header section survives the wire. -/
theorem decHeader_encHeader (h : AmqpMessageHeader) (r : List Nat) :
    decHeader (encHeader h ++ r) = some (h, r) := by
  show decHeader
      ((((encBool h.durable ++ [h.priority]) ++
          encOption (fun n => [n]) h.timeToLive) ++
            encBool h.firstAcquirer) ++ [h.deliveryCount] ++ r) =
    some (h, r)
  rw [List.append_assoc, List.append_assoc, List.append_assoc,
      List.append_assoc]
  unfold decHeader
  rw [decBool_encBool]
  show (match decOption decNat
          (encOption (fun n => [n]) h.timeToLive ++
            (encBool h.firstAcquirer ++ ([h.deliveryCount] ++ r))) with
        | none => none
        | some (ttl, l3) =>
            match decBool l3 with
            | none => none
            | some (fa, l4) =>
                match l4 with
                | [] => none
                | dc :: l5 =>
                    some ({ durable := h.durable, priority := h.priority,
                            timeToLive := ttl, firstAcquirer := fa,
                            deliveryCount := dc }, l5)) = some (h, r)
  rw [decOptionNat]
  show (match decBool (encBool h.firstAcquirer ++ ([h.deliveryCount] ++ r)) with
        | none => none
        | some (fa, l4) =>
            match l4 with
            | [] => none
            | dc :: l5 =>
                some ({ durable := h.durable, priority := h.priority,
                        timeToLive := h.timeToLive, firstAcquirer := fa,
                        deliveryCount := dc }, l5)) = some (h, r)
  rw [decBool_encBool]
  rfl

/-- An optional string survives the wire. -/
theorem decOptionString (o : Option String) (r : List Nat) :
    decOption decString (encOption encString o ++ r) = some (o, r) :=
  decOption_encOption _ _ o r decString_encString

/-- An optional generic value survives the wire with sufficient fuel. -/
theorem decOptionValue (fuel : Nat) (o : Option AmqpValue) (r : List Nat)
    (h : (encOption encodeValue o).length ≤ fuel) :
    decOption (decodeValue fuel) (encOption encodeValue o ++ r) = some (o, r) := by
  cases o with
  | none => rfl
  | some v =>
      have hv : (encodeValue v).length ≤ fuel := by
        simp [encOption] at h
        omega
      simp [encOption, decOption, decodeValue_encodeValue v fuel r hv]

/-- The Properties section survives the wire with sufficient fuel. -/
theorem decProperties_encProperties (p : AmqpMessageProperties) (fuel : Nat)
    (r : List Nat) (h : (encProperties p).length ≤ fuel) :
    decProperties fuel (encProperties p ++ r) = some (p, r) := by
  have h1 : (encOption encodeValue p.messageId).length ≤ fuel := by
    simp only [encProperties, List.length_append] at h
    omega
  have h2 : (encOption encodeValue p.correlationId).length ≤ fuel := by
    simp only [encProperties, List.length_append] at h
    omega
  show decProperties fuel
      ((((encOption encodeValue p.messageId ++
            encOption encodeValue p.correlationId) ++
              encOption encString p.subject) ++
                encOption encString p.replyTo) ++
                  encOption encString p.contentType ++ r) = some (p, r)
  rw [List.append_assoc, List.append_assoc, List.append_assoc,
      List.append_assoc]
  unfold decProperties
  rw [decOptionValue fuel p.messageId _ h1]
  show (match decOption (decodeValue fuel)
          (encOption encodeValue p.correlationId ++
            (encOption encString p.subject ++
              (encOption encString p.replyTo ++
                (encOption encString p.contentType ++ r)))) with
        | none => none
        | some (cid, l2) =>
            match decOption decString l2 with
            | none => none
            | some (subj, l3) =>
                match decOption decString l3 with
                | none => none
                | some (rto, l4) =>
                    match decOption decString l4 with
                    | none => none
                    | some (ct, l5) =>
                        some ({ messageId := p.messageId,
                                correlationId := cid, subject := subj,
                                replyTo := rto, contentType := ct }, l5)) =
    some (p, r)
  rw [decOptionValue fuel p.correlationId _ h2]
  show (match decOption decString
          (encOption encString p.subject ++
            (encOption encString p.replyTo ++
              (encOption encString p.contentType ++ r))) with
        | none => none
        | some (subj, l3) =>
            match decOption decString l3 with
            | none => none
            | some (rto, l4) =>
                match decOption decString l4 with
                | none => none
                | some (ct, l5) =>
                    some ({ messageId := p.messageId,
                            correlationId := p.correlationId,
                            subject := subj, replyTo := rto,
                            contentType := ct }, l5)) = some (p, r)
  rw [decOptionString]
  show (match decOption decString
          (encOption encString p.replyTo ++
            (encOption encString p.contentType ++ r)) with
        | none => none
        | some (rto, l4) =>
            match decOption decString l4 with
            | none => none
            | some (ct, l5) =>
                some ({ messageId := p.messageId,
                        correlationId := p.correlationId,
                        subject := p.subject, replyTo := rto,
                        contentType := ct }, l5)) = some (p, r)
  rw [decOptionString]
  show (match decOption decString (encOption encString p.contentType ++ r) with
        | none => none
        | some (ct, l5) =>
            some ({ messageId := p.messageId,
                    correlationId := p.correlationId,
                    subject := p.subject, replyTo := p.replyTo,
                    contentType := ct }, l5)) = some (p, r)
  rw [decOptionString]

/-- Every binary-chunks encoding emits at least one token. -/
theorem encBinChunks_length_pos (cs : List (List Nat)) :
    0 < (encBinChunks cs).length := by
  cases cs <;> simp [encBinChunks]

/-- Every sequence-chunks encoding emits at least one token. -/
theorem encSeqChunks_length_pos (cs : List AmqpValueList) :
    0 < (encSeqChunks cs).length := by
  cases cs <;> simp [encSeqChunks]

/-- The binary body chunks survive the wire with sufficient fuel. -/
theorem decBinChunks_encBinChunks :
    ∀ (cs : List (List Nat)) (fuel : Nat) (r : List Nat),
      (encBinChunks cs).length ≤ fuel →
      decBinChunks fuel (encBinChunks cs ++ r) = some (cs, r)
  | [], fuel, r, h => by
      cases fuel with
      | zero => simp [encBinChunks] at h
      | succ f => rfl
  | c :: rest, fuel, r, h => by
      cases fuel with
      | zero => simp [encBinChunks] at h
      | succ f =>
          have hrp := encBinChunks_length_pos rest
          simp only [encBinChunks, encBytes, List.length_cons,
            List.length_append] at h
          have hrest : (encBinChunks rest).length ≤ f := by omega
          show decBinChunks (f + 1)
              (1 :: ((encBytes c ++ encBinChunks rest) ++ r)) =
            some (c :: rest, r)
          rw [List.append_assoc]
          show (match decBytes (encBytes c ++ (encBinChunks rest ++ r)) with
                | some (c, r) =>
                    (match decBinChunks f r with
                     | some (cs, r2) => some (c :: cs, r2)
                     | none => none)
                | none => none) = some (c :: rest, r)
          rw [decBytes_encBytes]
          show (match decBinChunks f (encBinChunks rest ++ r) with
                | some (cs, r2) => some (c :: cs, r2)
                | none => none) = some (c :: rest, r)
          rw [decBinChunks_encBinChunks rest f r hrest]

/-- The sequence body chunks survive the wire with sufficient fuel. -/
theorem decSeqChunks_encSeqChunks :
    ∀ (cs : List AmqpValueList) (fuel : Nat) (r : List Nat),
      (encSeqChunks cs).length ≤ fuel →
      decSeqChunks fuel (encSeqChunks cs ++ r) = some (cs, r)
  | [], fuel, r, h => by
      cases fuel with
      | zero => simp [encSeqChunks] at h
      | succ f => rfl
  | c :: rest, fuel, r, h => by
      cases fuel with
      | zero => simp [encSeqChunks] at h
      | succ f =>
          have hcp := encodeValueList_length_pos c
          have hrp := encSeqChunks_length_pos rest
          simp only [encSeqChunks, List.length_cons, List.length_append] at h
          have hc : (encodeValueList c).length ≤ f := by omega
          have hrest : (encSeqChunks rest).length ≤ f := by omega
          show decSeqChunks (f + 1)
              (1 :: ((encodeValueList c ++ encSeqChunks rest) ++ r)) =
            some (c :: rest, r)
          rw [List.append_assoc]
          show (match decodeValueList f (encodeValueList c ++ (encSeqChunks rest ++ r)) with
                | some (c, r) =>
                    (match decSeqChunks f r with
                     | some (cs, r2) => some (c :: cs, r2)
                     | none => none)
                | none => none) = some (c :: rest, r)
          rw [decodeValueList_encodeValueList c f (encSeqChunks rest ++ r) hc]
          show (match decSeqChunks f (encSeqChunks rest ++ r) with
                | some (cs, r2) => some (c :: cs, r2)
                | none => none) = some (c :: rest, r)
          rw [decSeqChunks_encSeqChunks rest f r hrest]

/-- The body survives the wire with sufficient fuel. -/
theorem decBody_encBody (b : AmqpMessageBody) (fuel : Nat) (r : List Nat)
    (h : (encBody b).length ≤ fuel) :
    decBody fuel (encBody b ++ r) = some (b, r) := by
  cases b with
  | binary cs =>
      have hc : (encBinChunks cs).length ≤ fuel := by
        simp only [encBody, List.length_cons] at h
        omega
      show (match decBinChunks fuel (encBinChunks cs ++ r) with
            | some (cs, r) => some (AmqpMessageBody.binary cs, r)
            | none => none) = some (AmqpMessageBody.binary cs, r)
      rw [decBinChunks_encBinChunks cs fuel r hc]
  | sequence cs =>
      have hc : (encSeqChunks cs).length ≤ fuel := by
        simp only [encBody, List.length_cons] at h
        omega
      show (match decSeqChunks fuel (encSeqChunks cs ++ r) with
            | some (cs, r) => some (AmqpMessageBody.sequence cs, r)
            | none => none) = some (AmqpMessageBody.sequence cs, r)
      rw [decSeqChunks_encSeqChunks cs fuel r hc]
  | value v =>
      have hv : (encodeValue v).length ≤ fuel := by
        simp only [encBody, List.length_cons] at h
        omega
      show (match decodeValue fuel (encodeValue v ++ r) with
            | some (v, r) => some (AmqpMessageBody.value v, r)
            | none => none) = some (AmqpMessageBody.value v, r)
      rw [decodeValue_encodeValue v fuel r hv]
  | empty => rfl

/-- An optional Header section survives the wire. -/
theorem decOptionHeader (o : Option AmqpMessageHeader) (r : List Nat) :
    decOption decHeader (encOption encHeader o ++ r) = some (o, r) :=
  decOption_encOption _ _ o r decHeader_encHeader

/-- An optional Properties section survives the wire with sufficient
fuel. -/
theorem decOptionProperties (fuel : Nat) (o : Option AmqpMessageProperties)
    (r : List Nat) (h : (encOption encProperties o).length ≤ fuel) :
    decOption (decProperties fuel) (encOption encProperties o ++ r) =
      some (o, r) := by
  cases o with
  | none => rfl
  | some p =>
      have hp : (encProperties p).length ≤ fuel := by
        simp [encOption] at h
        omega
      simp [encOption, decOption, decProperties_encProperties p fuel r hp]

/-- An optional annotations section survives the wire with sufficient
fuel. -/
theorem decOptionAnnPairs (fuel : Nat)
    (o : Option (List (AmqpAnnotationKey × AmqpValue))) (r : List Nat)
    (h : (encOption encAnnPairs o).length ≤ fuel) :
    decOption (decAnnPairs fuel) (encOption encAnnPairs o ++ r) =
      some (o, r) := by
  cases o with
  | none => rfl
  | some ps =>
      have hp : (encAnnPairs ps).length ≤ fuel := by
        simp [encOption] at h
        omega
      simp [encOption, decOption, decAnnPairs_encAnnPairs ps fuel r hp]

/-- An optional application-properties section survives the wire with
sufficient fuel. -/
theorem decOptionAppPairs (fuel : Nat)
    (o : Option (List (String × AmqpValue))) (r : List Nat)
    (h : (encOption encAppPairs o).length ≤ fuel) :
    decOption (decAppPairs fuel) (encOption encAppPairs o ++ r) =
      some (o, r) := by
  cases o with
  | none => rfl
  | some ps =>
      have hp : (encAppPairs ps).length ≤ fuel := by
        simp [encOption] at h
        omega
      simp [encOption, decOption, decAppPairs_encAppPairs ps fuel r hp]

/-- A whole message survives the wire with sufficient fuel. -/
theorem decodeMessage_encodeMessage (m : AmqpMessage) (fuel : Nat)
    (r : List Nat) (h : (encodeMessage m).length ≤ fuel) :
    decodeMessage fuel (encodeMessage m ++ r) = some (m, r) := by
  have h2 : (encOption encProperties m.properties).length ≤ fuel := by
    simp only [encodeMessage, List.length_append] at h
    omega
  have h3 : (encOption encAnnPairs m.deliveryAnnotations).length ≤ fuel := by
    simp only [encodeMessage, List.length_append] at h
    omega
  have h4 : (encOption encAnnPairs m.messageAnnotations).length ≤ fuel := by
    simp only [encodeMessage, List.length_append] at h
    omega
  have h5 : (encOption encAppPairs m.applicationProperties).length ≤ fuel := by
    simp only [encodeMessage, List.length_append] at h
    omega
  have h6 : (encOption encAnnPairs m.footer).length ≤ fuel := by
    simp only [encodeMessage, List.length_append] at h
    omega
  have h7 : (encBody m.body).length ≤ fuel := by
    simp only [encodeMessage, List.length_append] at h
    omega
  show decodeMessage fuel
      ((((((encOption encHeader m.header ++
              encOption encProperties m.properties) ++
                encOption encAnnPairs m.deliveryAnnotations) ++
                  encOption encAnnPairs m.messageAnnotations) ++
                    encOption encAppPairs m.applicationProperties) ++
                      encOption encAnnPairs m.footer) ++ encBody m.body ++ r) =
    some (m, r)
  rw [List.append_assoc, List.append_assoc, List.append_assoc,
      List.append_assoc, List.append_assoc, List.append_assoc]
  unfold decodeMessage
  rw [decOptionHeader]
  show (match decOption (decProperties fuel)
          (encOption encProperties m.properties ++
            (encOption encAnnPairs m.deliveryAnnotations ++
              (encOption encAnnPairs m.messageAnnotations ++
                (encOption encAppPairs m.applicationProperties ++
                  (encOption encAnnPairs m.footer ++ (encBody m.body ++ r)))))) with
        | none => none
        | some (pr, l2) =>
            match decOption (decAnnPairs fuel) l2 with
            | none => none
            | some (da, l3) =>
                match decOption (decAnnPairs fuel) l3 with
                | none => none
                | some (ma, l4) =>
                    match decOption (decAppPairs fuel) l4 with
                    | none => none
                    | some (ap, l5) =>
                        match decOption (decAnnPairs fuel) l5 with
                        | none => none
                        | some (ft, l6) =>
                            match decBody fuel l6 with
                            | none => none
                            | some (bd, l7) =>
                                some ({ header := m.header, properties := pr,
                                        deliveryAnnotations := da,
                                        messageAnnotations := ma,
                                        applicationProperties := ap,
                                        footer := ft, body := bd }, l7)) =
    some (m, r)
  rw [decOptionProperties fuel m.properties _ h2]
  show (match decOption (decAnnPairs fuel)
          (encOption encAnnPairs m.deliveryAnnotations ++
            (encOption encAnnPairs m.messageAnnotations ++
              (encOption encAppPairs m.applicationProperties ++
                (encOption encAnnPairs m.footer ++ (encBody m.body ++ r))))) with
        | none => none
        | some (da, l3) =>
            match decOption (decAnnPairs fuel) l3 with
            | none => none
            | some (ma, l4) =>
                match decOption (decAppPairs fuel) l4 with
                | none => none
                | some (ap, l5) =>
                    match decOption (decAnnPairs fuel) l5 with
                    | none => none
                    | some (ft, l6) =>
                        match decBody fuel l6 with
                        | none => none
                        | some (bd, l7) =>
                            some ({ header := m.header,
                                    properties := m.properties,
                                    deliveryAnnotations := da,
                                    messageAnnotations := ma,
                                    applicationProperties := ap,
                                    footer := ft, body := bd }, l7)) =
    some (m, r)
  rw [decOptionAnnPairs fuel m.deliveryAnnotations _ h3]
  show (match decOption (decAnnPairs fuel)
          (encOption encAnnPairs m.messageAnnotations ++
            (encOption encAppPairs m.applicationProperties ++
              (encOption encAnnPairs m.footer ++ (encBody m.body ++ r)))) with
        | none => none
        | some (ma, l4) =>
            match decOption (decAppPairs fuel) l4 with
            | none => none
            | some (ap, l5) =>
                match decOption (decAnnPairs fuel) l5 with
                | none => none
                | some (ft, l6) =>
                    match decBody fuel l6 with
                    | none => none
                    | some (bd, l7) =>
                        some ({ header := m.header,
                                properties := m.properties,
                                deliveryAnnotations := m.deliveryAnnotations,
                                messageAnnotations := ma,
                                applicationProperties := ap,
                                footer := ft, body := bd }, l7)) = some (m, r)
  rw [decOptionAnnPairs fuel m.messageAnnotations _ h4]
  show (match decOption (decAppPairs fuel)
          (encOption encAppPairs m.applicationProperties ++
            (encOption encAnnPairs m.footer ++ (encBody m.body ++ r))) with
        | none => none
        | some (ap, l5) =>
            match decOption (decAnnPairs fuel) l5 with
            | none => none
            | some (ft, l6) =>
                match decBody fuel l6 with
                | none => none
                | some (bd, l7) =>
                    some ({ header := m.header, properties := m.properties,
                            deliveryAnnotations := m.deliveryAnnotations,
                            messageAnnotations := m.messageAnnotations,
                            applicationProperties := ap,
                            footer := ft, body := bd }, l7)) = some (m, r)
  rw [decOptionAppPairs fuel m.applicationProperties _ h5]
  show (match decOption (decAnnPairs fuel)
          (encOption encAnnPairs m.footer ++ (encBody m.body ++ r)) with
        | none => none
        | some (ft, l6) =>
            match decBody fuel l6 with
            | none => none
            | some (bd, l7) =>
                some ({ header := m.header, properties := m.properties,
                        deliveryAnnotations := m.deliveryAnnotations,
                        messageAnnotations := m.messageAnnotations,
                        applicationProperties := m.applicationProperties,
                        footer := ft, body := bd }, l7)) = some (m, r)
  rw [decOptionAnnPairs fuel m.footer _ h6]
  show (match decBody fuel (encBody m.body ++ r) with
        | none => none
        | some (bd, l7) =>
            some ({ header := m.header, properties := m.properties,
                    deliveryAnnotations := m.deliveryAnnotations,
                    messageAnnotations := m.messageAnnotations,
                    applicationProperties := m.applicationProperties,
                    footer := m.footer, body := bd }, l7)) = some (m, r)
  rw [decBody_encBody m.body fuel r h7]

/-- The spec's codec contract: decode is a left inverse of encode. -/
theorem AmqpMessage.decode_encode (m : AmqpMessage) :
    AmqpMessage.decode (AmqpMessage.encode m) = Except.ok m := by
  unfold AmqpMessage.decode AmqpMessage.encode
  have h := decodeMessage_encodeMessage m ((encodeMessage m).length + 1) []
    (by omega)
  rw [List.append_nil] at h
  rw [h]

/-!
FFI wrapper layer, embedded from rust_wrapper/src/model/message.rs.
-/

/-- Embedded from the source: the boxed generic value handed across the
boundary. -/
structure RustAmqpValue : Type where
  inner : AmqpValue
deriving DecidableEq

/-- Embedded from the source: the boxed message handed across the
boundary. -/
structure RustAmqpMessage : Type where
  inner : AmqpMessage
deriving DecidableEq

/-- Embedded from the source: the boxed builder handed across the
boundary. -/
structure RustAmqpMessageBuilder : Type where
  inner : AmqpMessageBuilder
deriving DecidableEq

/-- Embedded from the source: the boxed header handed across the
boundary. -/
structure RustMessageHeader : Type where
  inner : AmqpMessageHeader
deriving DecidableEq

/-- Embedded from the source: the boxed properties record handed across
the boundary. -/
structure RustMessageProperties : Type where
  inner : AmqpMessageProperties
deriving DecidableEq

/-- Embedded from the source: the repr(C) body-type enum. -/
inductive RustAmqpMessageBodyType : Type where
  | data : RustAmqpMessageBodyType
  | value : RustAmqpMessageBodyType
  | sequence : RustAmqpMessageBodyType
  | none : RustAmqpMessageBodyType
deriving DecidableEq

/-- Embedded from the source: result of a builder FFI call.  `ok` is a
returned non-null pointer to the next builder state; `errorDropped` is
the path that sets an error on the call context and returns null after
`Box::from_raw` has consumed the input builder, so the caller's builder
is destroyed; `panicAbort` is a Rust panic crossing the extern "C"
boundary, which aborts the process. -/
inductive BuilderFfiResult : Type where
  | ok (b : RustAmqpMessageBuilder) : BuilderFfiResult
  | errorDropped (msg : String) : BuilderFfiResult
  | panicAbort (msg : String) : BuilderFfiResult
deriving DecidableEq

/-- Embedded from the source: result of a per-chunk body accessor.  `ok`
is status 0 with the chunk written; `mismatchedBodyType` is the non-zero
status on a body of the wrong variant; `panicIndexOutOfRange` models the
source's unchecked `d[index]` indexing, which panics (and so aborts
across the FFI boundary) when the index is out of range. -/
inductive ChunkAccessResult (α : Type) : Type where
  | ok (chunk : α) : ChunkAccessResult α
  | mismatchedBodyType : ChunkAccessResult α
  | panicIndexOutOfRange : ChunkAccessResult α
deriving DecidableEq

/-- List form of a value map, in its stored order. -/
def AmqpValueMap.toList : AmqpValueMap → List (AmqpValue × AmqpValue)
  | .nil => []
  | .cons k v rest => (k, v) :: AmqpValueMap.toList rest

/-- Value map built from a pair list, in the given order. -/
def AmqpValueMap.ofList : List (AmqpValue × AmqpValue) → AmqpValueMap
  | [] => .nil
  | (k, v) :: rest => .cons k v (AmqpValueMap.ofList rest)

/-- Modelled from the spec: the library conversion from a generic value
used as a map key to an annotation key ("a small integer code or a
textual symbol"); keys outside the spec's annotation-key domain do not
arise in the message model and default to a symbol. -/
def AmqpAnnotationKey.ofValue : AmqpValue → AmqpAnnotationKey
  | .ulong n => .code n
  | .symbol s => .symbol s
  | .string s => .symbol s
  | _ => .symbol ""

/-- Modelled from the spec: the library conversion from an annotation key
back to a generic value. -/
def AmqpValue.ofAnnotationKey : AmqpAnnotationKey → AmqpValue
  | .code n => .ulong n
  | .symbol s => .symbol s

/-- Whether a generic value is the string variant. -/
def AmqpValue.isString : AmqpValue → Bool
  | .string _ => true
  | _ => false

/-- The payload of a string-variant value, defaulting to the empty
string. -/
def AmqpValue.asString : AmqpValue → String
  | .string s => s
  | _ => ""

/-- Embedded from the source: messagebuilder_create boxes a fresh
builder. -/
def messagebuilder_create : RustAmqpMessageBuilder :=
  { inner := AmqpMessage.builder }

/-- Embedded from the source: messagebuilder_build_and_destroy consumes
the builder box and boxes the built message. -/
def messagebuilder_build_and_destroy (b : RustAmqpMessageBuilder) :
    RustAmqpMessage :=
  { inner := b.inner.build }

/-- Embedded from the source: message_create boxes a default message. -/
def message_create : RustAmqpMessage := { inner := {} }

/-- Embedded from the source: message_deserialize decodes the bytes; on
success it returns 0 and writes the boxed message to the out-pointer, on
failure it returns 1 and leaves the out-pointer unwritten. -/
def message_deserialize (data : List Nat) : Int × Option RustAmqpMessage :=
  match AmqpMessage.decode data with
  | .ok m => (0, some { inner := m })
  | .error _ => (1, none)

/-- Embedded from the source: message_get_header writes null and returns
0 when the header is absent, else writes the boxed header and returns
0. -/
def message_get_header (m : RustAmqpMessage) :
    Int × Option RustMessageHeader :=
  match m.inner.header with
  | Option.none => (0, Option.none)
  | some h => (0, some { inner := h })

/-- Embedded from the source: message_get_properties writes null and
returns 0 when the properties are absent, else writes the boxed
properties and returns 0. -/
def message_get_properties (m : RustAmqpMessage) :
    Int × Option RustMessageProperties :=
  match m.inner.properties with
  | Option.none => (0, Option.none)
  | some p => (0, some { inner := p })

/-- Embedded from the source: message_get_delivery_annotations writes the
section as a map value and returns 0 when present; writes null and
returns 1 when absent. -/
def message_get_delivery_annotations (m : RustAmqpMessage) :
    Int × Option RustAmqpValue :=
  match m.inner.deliveryAnnotations with
  | some da =>
      (0, some { inner := .map (AmqpValueMap.ofList
        (AmqpOrderedMap.fromPairs
          (List.map (fun f => (AmqpValue.ofAnnotationKey f.1, f.2)) da))) })
  | Option.none => (1, Option.none)

/-- Embedded from the source: message_get_message_annotations, same
conventions as the delivery-annotations getter. -/
def message_get_message_annotations (m : RustAmqpMessage) :
    Int × Option RustAmqpValue :=
  match m.inner.messageAnnotations with
  | some ma =>
      (0, some { inner := .map (AmqpValueMap.ofList
        (AmqpOrderedMap.fromPairs
          (List.map (fun f => (AmqpValue.ofAnnotationKey f.1, f.2)) ma))) })
  | Option.none => (1, Option.none)

/-- Embedded from the source: message_get_application_properties, same
conventions as the delivery-annotations getter, keys re-wrapped as string
values. -/
def message_get_application_properties (m : RustAmqpMessage) :
    Int × Option RustAmqpValue :=
  match m.inner.applicationProperties with
  | some ap =>
      (0, some { inner := .map (AmqpValueMap.ofList
        (AmqpOrderedMap.fromPairs
          (List.map (fun f => (AmqpValue.string f.1, f.2)) ap))) })
  | Option.none => (1, Option.none)

/-- Embedded from the source: message_get_footer, same conventions as the
delivery-annotations getter. -/
def message_get_footer (m : RustAmqpMessage) :
    Int × Option RustAmqpValue :=
  match m.inner.footer with
  | some ft =>
      (0, some { inner := .map (AmqpValueMap.ofList
        (AmqpOrderedMap.fromPairs
          (List.map (fun f => (AmqpValue.ofAnnotationKey f.1, f.2)) ft))) })
  | Option.none => (1, Option.none)

/-- Embedded from the source: message_get_body_type writes the repr(C)
variant tag and returns 0. -/
def message_get_body_type (m : RustAmqpMessage) :
    Int × RustAmqpMessageBodyType :=
  match m.inner.body with
  | .binary _ => (0, .data)
  | .value _ => (0, .value)
  | .sequence _ => (0, .sequence)
  | .empty => (0, .none)

/-- Embedded from the source: message_get_body_amqp_data_count writes the
chunk count and returns 0 on a Binary body, else returns 1 with the
out-parameter unwritten. -/
def message_get_body_amqp_data_count (m : RustAmqpMessage) :
    Int × Option Nat :=
  match m.inner.body with
  | .binary d => (0, some d.length)
  | _ => (1, Option.none)

/-- Embedded from the source: message_get_body_amqp_sequence_count writes
the chunk count and returns 0 on a Sequence body, else returns 1 with the
out-parameter unwritten. -/
def message_get_body_amqp_sequence_count (m : RustAmqpMessage) :
    Int × Option Nat :=
  match m.inner.body with
  | .sequence d => (0, some d.length)
  | _ => (1, Option.none)

/-- Embedded from the source: message_get_body_amqp_data_in_place indexes
the Binary chunks with unchecked `d[index]`. -/
def message_get_body_amqp_data_in_place (m : RustAmqpMessage)
    (index : Nat) : ChunkAccessResult (List Nat) :=
  match m.inner.body with
  | .binary d =>
      match d[index]? with
      | some c => .ok c
      | Option.none => .panicIndexOutOfRange
  | _ => .mismatchedBodyType

/-- Embedded from the source: message_get_body_amqp_sequence_in_place
indexes the Sequence chunks with unchecked `d[index]` and boxes the chunk
as a list value. -/
def message_get_body_amqp_sequence_in_place (m : RustAmqpMessage)
    (index : Nat) : ChunkAccessResult RustAmqpValue :=
  match m.inner.body with
  | .sequence d =>
      match d[index]? with
      | some c => .ok { inner := .list c }
      | Option.none => .panicIndexOutOfRange
  | _ => .mismatchedBodyType

/-- Embedded from the source: message_get_body_amqp_value_in_place boxes
the value and returns 0 on a Value body, else returns 1 with the
out-parameter unwritten. -/
def message_get_body_amqp_value_in_place (m : RustAmqpMessage) :
    Int × Option RustAmqpValue :=
  match m.inner.body with
  | .value d => (0, some { inner := d })
  | _ => (1, Option.none)

/-- Embedded from the source: messagebuilder_set_delivery_annotations
requires a map value; on a non-map it sets the error "Delivery
annotations must be a map" and returns null with the input builder
consumed and dropped. -/
def messagebuilder_set_delivery_annotations (b : RustAmqpMessageBuilder)
    (v : RustAmqpValue) : BuilderFfiResult :=
  match v.inner with
  | .map m =>
      .ok { inner := (b.inner.with_delivery_annotations
        (AmqpOrderedMap.fromPairs
          (List.map (fun f => (AmqpAnnotationKey.ofValue f.1, f.2))
            (AmqpValueMap.toList m)))) }
  | _ => .errorDropped "Delivery annotations must be a map"

/-- Embedded from the source: messagebuilder_set_message_annotations,
same shape check with the error "Message annotations must be a map". -/
def messagebuilder_set_message_annotations (b : RustAmqpMessageBuilder)
    (v : RustAmqpValue) : BuilderFfiResult :=
  match v.inner with
  | .map m =>
      .ok { inner := (b.inner.with_message_annotations
        (AmqpOrderedMap.fromPairs
          (List.map (fun f => (AmqpAnnotationKey.ofValue f.1, f.2))
            (AmqpValueMap.toList m)))) }
  | _ => .errorDropped "Message annotations must be a map"

/-- Embedded from the source: messagebuilder_set_application_properties
requires a map value (else the error "Application Properties must be a
map" with the builder dropped); while collecting the entries, any key
that is not a string hits the source's
`panic!("Application Properties key must be a string.")`. -/
def messagebuilder_set_application_properties (b : RustAmqpMessageBuilder)
    (v : RustAmqpValue) : BuilderFfiResult :=
  match v.inner with
  | .map m =>
      if (AmqpValueMap.toList m).all (fun f => f.1.isString) then
        .ok { inner := (b.inner.with_application_properties
          (AmqpOrderedMap.fromPairs
            (List.map (fun f => (f.1.asString, f.2))
              (AmqpValueMap.toList m)))) }
      else .panicAbort "Application Properties key must be a string."
  | _ => .errorDropped "Application Properties must be a map"

/-- Embedded from the source: messagebuilder_set_footer, same shape check
with the error "Footer must be a map". -/
def messagebuilder_set_footer (b : RustAmqpMessageBuilder)
    (v : RustAmqpValue) : BuilderFfiResult :=
  match v.inner with
  | .map m =>
      .ok { inner := (b.inner.with_footer
        (AmqpOrderedMap.fromPairs
          (List.map (fun f => (AmqpAnnotationKey.ofValue f.1, f.2))
            (AmqpValueMap.toList m)))) }
  | _ => .errorDropped "Footer must be a map"

/-- Embedded from the source: messagebuilder_set_header always
succeeds. -/
def messagebuilder_set_header (b : RustAmqpMessageBuilder)
    (h : RustMessageHeader) : RustAmqpMessageBuilder :=
  { inner := b.inner.with_header h.inner }

/-- Embedded from the source: messagebuilder_set_properties always
succeeds. -/
def messagebuilder_set_properties (b : RustAmqpMessageBuilder)
    (p : RustMessageProperties) : RustAmqpMessageBuilder :=
  { inner := b.inner.with_properties p.inner }

/-- Embedded from the source: messagebuilder_add_body_amqp_data copies
the bytes and appends them as a binary chunk, with no variant-conflict
check. -/
def messagebuilder_add_body_amqp_data (b : RustAmqpMessageBuilder)
    (data : List Nat) : RustAmqpMessageBuilder :=
  { inner := b.inner.add_message_body_binary data }

/-- Embedded from the source: messagebuilder_add_body_amqp_sequence
requires a list value (else the error "Sequence must be a list" with the
builder dropped), with no variant-conflict check. -/
def messagebuilder_add_body_amqp_sequence (b : RustAmqpMessageBuilder)
    (v : RustAmqpValue) : BuilderFfiResult :=
  match v.inner with
  | .list l => .ok { inner := b.inner.add_message_body_sequence l }
  | _ => .errorDropped "Sequence must be a list"

/-- Embedded from the source: messagebuilder_set_body_amqp_value always
succeeds, replacing the body with the Value variant. -/
def messagebuilder_set_body_amqp_value (b : RustAmqpMessageBuilder)
    (v : RustAmqpValue) : RustAmqpMessageBuilder :=
  { inner := b.inner.with_body v.inner }

/-- Whether a generic value is the map variant. -/
def AmqpValue.isMap : AmqpValue → Bool
  | .map _ => true
  | _ => false

/-- The builder state available to the caller after a builder FFI call:
the returned builder on success, nothing otherwise, because the input
pointer was consumed by Box::from_raw and the box is dropped on the
error path. -/
def BuilderFfiResult.survivingBuilder :
    BuilderFfiResult → Option RustAmqpMessageBuilder
  | .ok b => some b
  | .errorDropped _ => none
  | .panicAbort _ => none

/-- C1: for every Message constructible via the Builder, decoding the
bytes produced by encoding it yields an equal Message, section by
section and in body variant, including the absent-vs-empty distinction
of each optional section (sections are plain record fields, so equality
is section-wise). -/
theorem C1_roundtrip (b : AmqpMessageBuilder) :
    AmqpMessage.decode (AmqpMessage.encode b.build) = Except.ok b.build :=
  AmqpMessage.decode_encode b.build

/-- C2 (refuting the claim on the code): on an application-properties
map with a non-text key the source hits
`panic!("Application Properties key must be a string.")`, aborting the
process instead of returning a recoverable shape-violation error. -/
theorem C2_nontext_key_aborts :
    messagebuilder_set_application_properties messagebuilder_create
        { inner := .map (.cons (.ulong 3) .null .nil) } =
      .panicAbort "Application Properties key must be a string." := rfl

/-- C3 (refuting the claim on the code): a setter given an invalid input
does signal the named error, but the prior builder state (here a builder
with a header already set) is consumed and dropped — no builder survives
the failed call, for the annotations setter and the sequence adder
alike. -/
theorem C3_error_drops_builder :
    (messagebuilder_set_delivery_annotations
          (messagebuilder_set_header messagebuilder_create { inner := {} })
          { inner := .string "x" }) =
        .errorDropped "Delivery annotations must be a map" ∧
    (messagebuilder_set_delivery_annotations
          (messagebuilder_set_header messagebuilder_create { inner := {} })
          { inner := .string "x" }).survivingBuilder = none ∧
    (messagebuilder_add_body_amqp_sequence
          (messagebuilder_set_header messagebuilder_create { inner := {} })
          { inner := .string "x" }) =
        .errorDropped "Sequence must be a list" ∧
    (messagebuilder_add_body_amqp_sequence
          (messagebuilder_set_header messagebuilder_create { inner := {} })
          { inner := .string "x" }).survivingBuilder = none :=
  ⟨rfl, rfl, rfl, rfl⟩

/-- C4 (refuting the claim on the code): the per-chunk accessors index
with unchecked `d[index]`, so an index equal to the chunk count panics
(process abort) instead of returning a recoverable out-of-range
error. -/
theorem C4_chunk_out_of_range_panics :
    message_get_body_amqp_data_in_place
        { inner := { body := .binary [[1, 2, 3]] } } 1 =
      .panicIndexOutOfRange ∧
    message_get_body_amqp_sequence_in_place
        { inner := { body := .sequence [.nil] } } 1 =
      .panicIndexOutOfRange := by
  constructor <;> rfl

/-- C5 (refuting the claim on the code): after set_body_value, adding a
binary chunk is not rejected — the call succeeds and the body variant is
silently switched from Value to Binary. -/
theorem C5_add_binary_after_value_switches :
    (messagebuilder_add_body_amqp_data
        (messagebuilder_set_body_amqp_value messagebuilder_create
          { inner := .string "hello" })
        [1, 2]).inner.body = .binary [[1, 2]] := rfl

/-- C6: message_deserialize either returns status 0 with the decoded
complete Message written to the out-pointer, or a non-zero status with
nothing written. -/
theorem C6_deserialize_complete_or_error (data : List Nat) :
    ((message_deserialize data).1 = 0 ∧
      ∃ m : RustAmqpMessage, (message_deserialize data).2 = some m ∧
        AmqpMessage.decode data = Except.ok m.inner) ∨
    ((message_deserialize data).1 = 1 ∧
      (message_deserialize data).2 = Option.none) := by
  cases hd : AmqpMessage.decode data with
  | ok m =>
      left
      constructor
      · simp [message_deserialize, hd]
      · exact ⟨{ inner := m }, by simp [message_deserialize, hd], rfl⟩
  | error e =>
      right
      constructor <;> simp [message_deserialize, hd]

/-- C7: each of the delivery-annotations, message-annotations and footer
setters, given a non-map value, reports the named "X must be a map"
error and produces no builder (no silent coercion). -/
theorem C7_nonmap_reports_named_error (b : RustAmqpMessageBuilder)
    (v : RustAmqpValue) (h : v.inner.isMap = false) :
    messagebuilder_set_delivery_annotations b v =
      .errorDropped "Delivery annotations must be a map" ∧
    messagebuilder_set_message_annotations b v =
      .errorDropped "Message annotations must be a map" ∧
    messagebuilder_set_footer b v =
      .errorDropped "Footer must be a map" := by
  obtain ⟨w⟩ := v
  cases w with
  | map m => simp [AmqpValue.isMap] at h
  | null => exact ⟨rfl, rfl, rfl⟩
  | bool b' => exact ⟨rfl, rfl, rfl⟩
  | ulong n => exact ⟨rfl, rfl, rfl⟩
  | int i => exact ⟨rfl, rfl, rfl⟩
  | string s => exact ⟨rfl, rfl, rfl⟩
  | symbol s => exact ⟨rfl, rfl, rfl⟩
  | binary bs => exact ⟨rfl, rfl, rfl⟩
  | list xs => exact ⟨rfl, rfl, rfl⟩

/-- C7 witness: the non-map check and the three named errors at a
concrete non-map input. -/
theorem C7_witness :
    (RustAmqpValue.mk (AmqpValue.string "x")).inner.isMap = false ∧
    (messagebuilder_set_delivery_annotations messagebuilder_create
        { inner := .string "x" } =
      .errorDropped "Delivery annotations must be a map" ∧
    messagebuilder_set_message_annotations messagebuilder_create
        { inner := .string "x" } =
      .errorDropped "Message annotations must be a map" ∧
    messagebuilder_set_footer messagebuilder_create
        { inner := .string "x" } =
      .errorDropped "Footer must be a map") :=
  ⟨rfl, C7_nonmap_reports_named_error messagebuilder_create
    { inner := .string "x" } rfl⟩

/-- C8: each variant-specific body accessor returns status 0 exactly when
the body is the matching variant, and on a mismatch returns status 1 with
nothing written to the out-parameter. -/
theorem C8_body_accessor_statuses (m : RustAmqpMessage) :
    ((message_get_body_amqp_data_count m).1 = 0 ↔
      (message_get_body_type m).2 = .data) ∧
    ((message_get_body_amqp_data_count m).1 ≠ 0 →
      (message_get_body_amqp_data_count m).1 = 1 ∧
        (message_get_body_amqp_data_count m).2 = Option.none) ∧
    ((message_get_body_amqp_sequence_count m).1 = 0 ↔
      (message_get_body_type m).2 = .sequence) ∧
    ((message_get_body_amqp_sequence_count m).1 ≠ 0 →
      (message_get_body_amqp_sequence_count m).1 = 1 ∧
        (message_get_body_amqp_sequence_count m).2 = Option.none) ∧
    ((message_get_body_amqp_value_in_place m).1 = 0 ↔
      (message_get_body_type m).2 = .value) ∧
    ((message_get_body_amqp_value_in_place m).1 ≠ 0 →
      (message_get_body_amqp_value_in_place m).1 = 1 ∧
        (message_get_body_amqp_value_in_place m).2 = Option.none) := by
  cases hb : m.inner.body <;>
    simp [message_get_body_amqp_data_count,
      message_get_body_amqp_sequence_count,
      message_get_body_amqp_value_in_place, message_get_body_type, hb]

/-- C8 witness: the accessor statuses at a concrete Binary-body
message. -/
theorem C8_witness :
    ((message_get_body_amqp_data_count
        { inner := { body := .binary [[5]] } }).1 = 0 ↔
      (message_get_body_type { inner := { body := .binary [[5]] } }).2 =
        .data) ∧
    ((message_get_body_amqp_data_count
        { inner := { body := .binary [[5]] } }).1 ≠ 0 →
      (message_get_body_amqp_data_count
        { inner := { body := .binary [[5]] } }).1 = 1 ∧
        (message_get_body_amqp_data_count
          { inner := { body := .binary [[5]] } }).2 = Option.none) ∧
    ((message_get_body_amqp_sequence_count
        { inner := { body := .binary [[5]] } }).1 = 0 ↔
      (message_get_body_type { inner := { body := .binary [[5]] } }).2 =
        .sequence) ∧
    ((message_get_body_amqp_sequence_count
        { inner := { body := .binary [[5]] } }).1 ≠ 0 →
      (message_get_body_amqp_sequence_count
        { inner := { body := .binary [[5]] } }).1 = 1 ∧
        (message_get_body_amqp_sequence_count
          { inner := { body := .binary [[5]] } }).2 = Option.none) ∧
    ((message_get_body_amqp_value_in_place
        { inner := { body := .binary [[5]] } }).1 = 0 ↔
      (message_get_body_type { inner := { body := .binary [[5]] } }).2 =
        .value) ∧
    ((message_get_body_amqp_value_in_place
        { inner := { body := .binary [[5]] } }).1 ≠ 0 →
      (message_get_body_amqp_value_in_place
        { inner := { body := .binary [[5]] } }).1 = 1 ∧
        (message_get_body_amqp_value_in_place
          { inner := { body := .binary [[5]] } }).2 = Option.none) :=
  C8_body_accessor_statuses { inner := { body := .binary [[5]] } }

/-- C9: the default Message has every section absent and the Empty body;
building a fresh Builder with no operations yields the same Message, and
message_get_body_type reports the None variant with status 0. -/
theorem C9_default_message_all_absent :
    message_create.inner.header = Option.none ∧
    message_create.inner.properties = Option.none ∧
    message_create.inner.deliveryAnnotations = Option.none ∧
    message_create.inner.messageAnnotations = Option.none ∧
    message_create.inner.applicationProperties = Option.none ∧
    message_create.inner.footer = Option.none ∧
    message_create.inner.body = .empty ∧
    messagebuilder_build_and_destroy messagebuilder_create =
      message_create ∧
    message_get_body_type message_create = (0, .none) :=
  ⟨rfl, rfl, rfl, rfl, rfl, rfl, rfl, rfl, rfl⟩

/-- C10: absence signalling is inconsistent across the getters — the
header and properties getters return status 0 with a null out-pointer on
an absent section, while the four map-section getters return status 1
with a null out-pointer when absent and status 0 when present. -/
theorem C10_getter_absence_statuses (m : RustAmqpMessage) :
    ((message_get_header m).1 = 0 ∧
      ((message_get_header m).2 = Option.none ↔
        m.inner.header = Option.none)) ∧
    ((message_get_properties m).1 = 0 ∧
      ((message_get_properties m).2 = Option.none ↔
        m.inner.properties = Option.none)) ∧
    ((message_get_delivery_annotations m).1 =
        if m.inner.deliveryAnnotations = Option.none then 1 else 0) ∧
    ((message_get_delivery_annotations m).2 = Option.none ↔
      m.inner.deliveryAnnotations = Option.none) ∧
    ((message_get_message_annotations m).1 =
        if m.inner.messageAnnotations = Option.none then 1 else 0) ∧
    ((message_get_message_annotations m).2 = Option.none ↔
      m.inner.messageAnnotations = Option.none) ∧
    ((message_get_application_properties m).1 =
        if m.inner.applicationProperties = Option.none then 1 else 0) ∧
    ((message_get_application_properties m).2 = Option.none ↔
      m.inner.applicationProperties = Option.none) ∧
    ((message_get_footer m).1 =
        if m.inner.footer = Option.none then 1 else 0) ∧
    ((message_get_footer m).2 = Option.none ↔
      m.inner.footer = Option.none) := by
  refine ⟨⟨?_, ?_⟩, ⟨?_, ?_⟩, ?_, ?_, ?_, ?_, ?_, ?_, ?_, ?_⟩
  · cases hh : m.inner.header <;> simp [message_get_header, hh]
  · cases hh : m.inner.header <;> simp [message_get_header, hh]
  · cases hh : m.inner.properties <;> simp [message_get_properties, hh]
  · cases hh : m.inner.properties <;> simp [message_get_properties, hh]
  · cases hh : m.inner.deliveryAnnotations <;>
      simp [message_get_delivery_annotations, hh]
  · cases hh : m.inner.deliveryAnnotations <;>
      simp [message_get_delivery_annotations, hh]
  · cases hh : m.inner.messageAnnotations <;>
      simp [message_get_message_annotations, hh]
  · cases hh : m.inner.messageAnnotations <;>
      simp [message_get_message_annotations, hh]
  · cases hh : m.inner.applicationProperties <;>
      simp [message_get_application_properties, hh]
  · cases hh : m.inner.applicationProperties <;>
      simp [message_get_application_properties, hh]
  · cases hh : m.inner.footer <;> simp [message_get_footer, hh]
  · cases hh : m.inner.footer <;> simp [message_get_footer, hh]
